import Mathlib

/-!
# User directory table: the derivation pipeline and the fetch state machine of `src/App.js`

The single component `App` keeps eight pieces of state (`users`, `loading`, `error`,
`searchTerm`, `sortBy`, `filterBy`, `currentPage`, `totalPages`), derives
`filteredAndSortedUsers` and `paginatedUsers` from them, and mutates them only through
`fetchUsers` / `loadMoreUsers` and the three control setters.

Modelling choices.
* JavaScript strings are Lean `String`s; the string methods used by the component are
  defined on the underlying character lists by structural recursion.
* `String.prototype.toLowerCase` applies the Unicode default case conversion of the host: each
  code point is replaced by its lower-case mapping, which may consist of several code points
  and may depend on the code points around it (final sigma). The mapping is a parameter
  `lowerMapping : CaseMapping` of everything that filters; `toLowerCase` is the conversion
  built from it.
* `String.prototype.localeCompare` depends on the host collation, so it is a parameter
  `localeCompare : String → String → Int` of everything that sorts.
* `Array.prototype.sort` is specified to be stable; it is modelled by the stable insertion
  procedure driven by the sign of the comparator.
* The asynchronous `fetchUsers` is split at its only suspension point (the `await`s) into
  `fetchUsers_start` and `fetchUsers_settle`; requests that have been issued and not yet
  settled are recorded explicitly in `Sys.pending`.
-/

namespace UserDirectory

/-! ## Data model -/

/-- One element of `data.data` as returned by the users endpoint. -/
structure User where
  id : Nat
  email : String
  first_name : String
  last_name : String
  avatar : String
  deriving DecidableEq, Repr

/-- The component state: the eight `useState` cells of `App` (lines 5-12). -/
structure State where
  users : List User
  loading : Bool
  error : Option String
  searchTerm : String
  sortBy : String
  filterBy : String
  currentPage : Nat
  totalPages : Nat
  deriving DecidableEq, Repr

/-- The initial values passed to `useState` (lines 5-12). -/
def initialState : State :=
  { users := [], loading := true, error := none, searchTerm := "", sortBy := "first_name",
    filterBy := "all", currentPage := 1, totalPages := 1 }

/-! ## String methods -/

/-- The lower-case mapping of one code point in its context: `lowerMapping before c after`
is what the code point `c`, preceded by `before` and followed by `after`, is replaced with
by the host's case conversion. -/
abbrev CaseMapping : Type := List Char → Char → List Char → List Char

/-- Case conversion of the code points that follow `before`: every code point is replaced by
its mapping in context, in order. -/
def lowerFrom (lowerMapping : CaseMapping) (before : List Char) : List Char → List Char
  | [] => []
  | c :: after => lowerMapping before c after ++ lowerFrom lowerMapping (before ++ [c]) after

/-- `s.toLowerCase()`. -/
def toLowerCase (lowerMapping : CaseMapping) (s : String) : String :=
  ⟨lowerFrom lowerMapping [] s.data⟩

/-- `s.startsWith(t)`. -/
def startsWith (s t : String) : Bool := t.data.isPrefixOf s.data

/-- Substring test on character lists: some suffix of the first list begins with the second. -/
def includesChars : List Char → List Char → Bool
  | [], t => t.isPrefixOf []
  | c :: s, t => t.isPrefixOf (c :: s) || includesChars s t

/-- `s.includes(t)`. -/
def includes (s t : String) : Bool := includesChars s.data t.data

/-- `s.endsWith(t)`, used only to state properties of e-mail addresses. -/
def endsWith (s t : String) : Bool := t.data.isSuffixOf s.data

/-! ## Filter step (lines 49-66) -/

/-- The local `matchesSearch` of the filter callback (lines 50-53). -/
def matchesSearch (lowerMapping : CaseMapping) (searchTerm : String) (user : User) : Bool :=
  includes (toLowerCase lowerMapping user.first_name) (toLowerCase lowerMapping searchTerm) ||
  includes (toLowerCase lowerMapping user.last_name) (toLowerCase lowerMapping searchTerm) ||
  includes (toLowerCase lowerMapping user.email) (toLowerCase lowerMapping searchTerm)

/-- The callback given to `users.filter` (lines 49-66). -/
def filterCallback (lowerMapping : CaseMapping) (searchTerm filterBy : String)
    (user : User) : Bool :=
  if filterBy = "all" then matchesSearch lowerMapping searchTerm user
  else if filterBy = "gmail" then
    matchesSearch lowerMapping searchTerm user && includes user.email "@gmail.com"
  else if filterBy = "first_letter_a" then
    matchesSearch lowerMapping searchTerm user &&
      startsWith (toLowerCase lowerMapping user.first_name) "a"
  else matchesSearch lowerMapping searchTerm user

/-! ## Sort step (lines 69-80) -/

/-- The comparator given to `filtered.sort` (lines 69-80). -/
def compareFn (localeCompare : String → String → Int) (sortBy : String) (a b : User) : Int :=
  if sortBy = "first_name" then localeCompare a.first_name b.first_name
  else if sortBy = "last_name" then localeCompare a.last_name b.last_name
  else if sortBy = "email" then localeCompare a.email b.email
  else 0

/-- Insertion of `x`, which preceded every element of `l` in the input, into `l`: `x` is put
in front of the first element it does not compare greater than. -/
def sortInsert {α : Type} (cmp : α → α → Int) (x : α) : List α → List α
  | [] => [x]
  | y :: l => if cmp x y ≤ 0 then x :: y :: l else y :: sortInsert cmp x l

/-- `xs.sort(cmp)`: stable insertion sort by the sign of `cmp`. -/
def sort {α : Type} (cmp : α → α → Int) : List α → List α
  | [] => []
  | x :: l => sortInsert cmp x (sort cmp l)

/-- The memoised `filteredAndSortedUsers` (lines 48-83). -/
def filteredAndSortedUsers (lowerMapping : CaseMapping)
    (localeCompare : String → String → Int) (s : State) : List User :=
  sort (compareFn localeCompare s.sortBy)
    (s.users.filter (filterCallback lowerMapping s.searchTerm s.filterBy))

/-! ## Window (lines 85-90) -/

/-- The constant `itemsPerPage` (line 86). -/
def itemsPerPage : Int := 6

/-- `xs.slice(0, e)` for an integer `e`: a negative `e` counts from the end of the array. -/
def slice0 {α : Type} (xs : List α) (e : Int) : List α :=
  if e < 0 then xs.take ((xs.length : Int) + e).toNat else xs.take e.toNat

/-- The local `startIndex` of `paginatedUsers` (line 88). -/
def startIndex (s : State) : Int := ((s.currentPage : Int) - 1) * itemsPerPage

/-- The memoised `paginatedUsers` (lines 87-90). -/
def paginatedUsers (lowerMapping : CaseMapping)
    (localeCompare : String → String → Int) (s : State) : List User :=
  slice0 (filteredAndSortedUsers lowerMapping localeCompare s) (startIndex s + itemsPerPage)

/-- The first argument of `slice` in `paginatedUsers`, written `visibleWindow` in the design
notes: `startIndex + itemsPerPage` (line 89). -/
def visibleWindow (s : State) : Int := startIndex s + itemsPerPage

/-! ## Fetching (lines 15-45) -/

/-- How the two `await`s of `fetchUsers` (lines 18-19) come back: the request rejects, the
JSON parse rejects, or the parsed body `{data, total_pages}` is available. -/
inductive FetchOutcome where
  | requestFailed (reason : String)
  | parseFailed (reason : String)
  | ok (data : List User) (total_pages : Nat)
  deriving DecidableEq, Repr

/-- The message stored by the `catch` block (line 30). -/
def fetchErrorMessage : String := "Failed to fetch users. Please try again."

/-- The synchronous head of `fetchUsers`: `setLoading(true)` (line 17), after which the
function is suspended on the request. -/
def fetchUsers_start (s : State) : State := { s with loading := true }

/-- The rest of the `try` block once the awaits have come back (lines 18-28): a rejection
is thrown, a body is merged into the state current at that time. -/
def fetchUsers_try (page : Nat) (o : FetchOutcome) (s : State) : Except String State :=
  match o with
  | .requestFailed reason => .error reason
  | .parseFailed reason => .error reason
  | .ok data total_pages =>
    .ok { s with
      users := if page = 1 then data else s.users ++ data
      totalPages := total_pages
      currentPage := page }

/-- The continuation of `fetchUsers` after the awaits: `try` body, `catch` (line 30) and
`finally` (line 32). The result is the completion of the whole `async` function. -/
def fetchUsers_settle (page : Nat) (o : FetchOutcome) (s : State) : Except String State :=
  let caught : Except String State :=
    match fetchUsers_try page o s with
    | .ok s1 => .ok s1
    | .error _ => .ok { s with error := some fetchErrorMessage }
  match caught with
  | .ok s2 => .ok { s2 with loading := false }
  | .error e => .error e

/-- The component together with the requests that were issued and have not settled yet
(the page number each suspended `fetchUsers` call holds in its closure). -/
structure Sys where
  state : State
  pending : List Nat
  deriving DecidableEq, Repr

/-- A call `fetchUsers(page)` up to its suspension. -/
def fetchUsers (page : Nat) (sys : Sys) : Sys :=
  { state := fetchUsers_start sys.state, pending := sys.pending ++ [page] }

/-- The effect run once after the first render (lines 36-38). -/
def mount : Sys := fetchUsers 1 { state := initialState, pending := [] }

/-- `loadMoreUsers` (lines 41-45), up to the suspension of the fetch it starts. -/
def loadMoreUsers (sys : Sys) : Sys :=
  if sys.state.currentPage < sys.state.totalPages then
    fetchUsers (sys.state.currentPage + 1) sys
  else sys

/-- A suspended `fetchUsers(page)` resumes with outcome `o`. Nothing happens when no such
call is suspended. -/
def settle (page : Nat) (o : FetchOutcome) (sys : Sys) : Sys :=
  if page ∈ sys.pending then
    match fetchUsers_settle page o sys.state with
    | .ok s1 => { state := s1, pending := sys.pending.erase page }
    | .error _ => { state := sys.state, pending := sys.pending.erase page }
  else sys

/-! ## Rendering and events (lines 94-207) -/

/-- Truthiness of `error` as tested by `if (error)` (line 94). -/
def errorShown (s : State) : Bool :=
  match s.error with
  | none => false
  | some m => m != ""

/-- Whether the 'Load More' button is part of the rendered output: no error screen
(line 94), no spinner (line 141), a non-empty result (line 188) and a truncating window
(line 194). -/
def loadMoreRendered (lowerMapping : CaseMapping)
    (localeCompare : String → String → Int) (s : State) : Bool :=
  !errorShown s &&
  !(s.loading && (paginatedUsers lowerMapping localeCompare s).length == 0) &&
  decide (0 < (filteredAndSortedUsers lowerMapping localeCompare s).length) &&
  decide ((paginatedUsers lowerMapping localeCompare s).length <
    (filteredAndSortedUsers lowerMapping localeCompare s).length)

/-- The `disabled` attribute of the button (line 197). -/
def loadMoreDisabled (s : State) : Bool :=
  s.loading || decide (s.currentPage ≥ s.totalPages)

/-- Whether the three controls are part of the rendered output (lines 111-139): they are
missing only on the error screen. -/
def controlsRendered (s : State) : Bool := !errorShown s

/-- A click on 'Load More': `onClick={loadMoreUsers}` fires only for a rendered, enabled
button (lines 194-200). The closure `loadMoreUsers` is called from nowhere else. -/
def clickLoadMore (lowerMapping : CaseMapping)
    (localeCompare : String → String → Int) (sys : Sys) : Sys :=
  if loadMoreRendered lowerMapping localeCompare sys.state && !loadMoreDisabled sys.state then
    loadMoreUsers sys
  else sys

/-- What can happen to the mounted component. -/
inductive Event where
  | settled (page : Nat) (o : FetchOutcome)
  | loadMoreClicked
  | searchTermChanged (value : String)
  | sortByChanged (value : String)
  | filterByChanged (value : String)
  deriving DecidableEq, Repr

/-- One event applied to the component. -/
def step (lowerMapping : CaseMapping)
    (localeCompare : String → String → Int) (sys : Sys) : Event → Sys
  | .settled page o => settle page o sys
  | .loadMoreClicked => clickLoadMore lowerMapping localeCompare sys
  | .searchTermChanged v =>
    if controlsRendered sys.state then { sys with state := { sys.state with searchTerm := v } }
    else sys
  | .sortByChanged v =>
    if controlsRendered sys.state then { sys with state := { sys.state with sortBy := v } }
    else sys
  | .filterByChanged v =>
    if controlsRendered sys.state then { sys with state := { sys.state with filterBy := v } }
    else sys

/-- The component after a sequence of events, starting from the mount. -/
def run (lowerMapping : CaseMapping)
    (localeCompare : String → String → Int) (events : List Event) : Sys :=
  events.foldl (step lowerMapping localeCompare) mount

/-- Whether an event delivers at most `itemsPerPage` records. -/
def Event.smallPage : Event → Prop
  | .settled _ (.ok data _) => data.length ≤ 6
  | _ => True

/-! ## A concrete case mapping and collation for evaluation -/

/-- The case mapping that lower-cases the ASCII letters and leaves every other code point
as it is, standing in for the host's mapping when the definitions are evaluated on concrete
records. -/
def asciiLowerMapping : CaseMapping := fun _ c _ => [c.toLower]

/-- A case mapping that goes beyond the ASCII letters: `É` becomes `é`, and `İ` becomes `i`
followed by the combining dot above (two code points). -/
def sampleLowerMapping : CaseMapping := fun _ c _ =>
  if c = 'É' then ['é'] else if c = 'İ' then ['i', Char.ofNat 775] else [c.toLower]

/-- Comparison of character lists by code unit, first difference deciding. -/
def compareChars : List Char → List Char → Int
  | [], [] => 0
  | [], _ :: _ => -1
  | _ :: _, [] => 1
  | a :: s, b :: t =>
    if a.toNat < b.toNat then -1 else if b.toNat < a.toNat then 1 else compareChars s t

/-- A consistent comparator on strings, standing in for `localeCompare` when the
definitions are evaluated on concrete records. -/
def codeUnitCompare (a b : String) : Int := compareChars a.data b.data

/-! ## Notions used in the statements and proofs -/

/-- The field of a record selected by one of the three sort options. -/
def sortKey (sortBy : String) (u : User) : String :=
  if sortBy = "first_name" then u.first_name
  else if sortBy = "last_name" then u.last_name
  else u.email

/-- The state a settled fetch leaves behind: the `.ok` payload of `fetchUsers_settle` (see
`fetchUsers_settle_eq`). -/
def settledState (page : Nat) (o : FetchOutcome) (s : State) : State :=
  match o with
  | .ok data total_pages =>
    { s with
      users := if page = 1 then data else s.users ++ data
      totalPages := total_pages
      currentPage := page
      loading := false }
  | _ => { s with error := some fetchErrorMessage, loading := false }

/-- What holds of the component after every sequence of events: the page counter is
positive, and at most one request is outstanding, namely the first page into an empty
list, or the page after the current one; while it is outstanding `loading` is set. -/
def Inv (sys : Sys) : Prop :=
  1 ≤ sys.state.currentPage ∧
  (sys.pending = [] ∨
   (sys.pending = [1] ∧ sys.state.users = [] ∧ sys.state.currentPage = 1 ∧
      sys.state.loading = true) ∨
   (sys.pending = [sys.state.currentPage + 1] ∧ sys.state.loading = true))

/-! ## Sample records -/

def amy : User :=
  ⟨1, "amy.zeta@gmail.com", "Amy", "Zeta", "https://reqres.in/img/faces/1-image.jpg"⟩

def bob : User :=
  ⟨2, "bob.alpha@gmail.com", "Bob", "Alpha", "https://reqres.in/img/faces/2-image.jpg"⟩

def cat : User :=
  ⟨3, "cat.moss@gmail.com.au", "Cat", "Moss", "https://reqres.in/img/faces/3-image.jpg"⟩

def dan : User :=
  ⟨4, "dan.holt@reqres.in", "Dan", "Holt", "https://reqres.in/img/faces/4-image.jpg"⟩

def abe : User :=
  ⟨5, "abe.moss@reqres.in", "abe", "Moss", "https://reqres.in/img/faces/5-image.jpg"⟩

def eve : User :=
  ⟨6, "eve.alpha@reqres.in", "Eve", "Alpha", "https://reqres.in/img/faces/6-image.jpg"⟩

def fay : User :=
  ⟨7, "fay.ward@reqres.in", "Fay", "Ward", "https://reqres.in/img/faces/7-image.jpg"⟩

def gus : User :=
  ⟨8, "gus.ruiz@reqres.in", "Gus", "Ruiz", "https://reqres.in/img/faces/8-image.jpg"⟩

def hal : User :=
  ⟨9, "hal.funk@reqres.in", "Hal", "Funk", "https://reqres.in/img/faces/9-image.jpg"⟩

def ivy : User :=
  ⟨10, "ivy.king@reqres.in", "Ivy", "King", "https://reqres.in/img/faces/10-image.jpg"⟩

def emile : User :=
  ⟨11, "emile.zola@reqres.in", "Émile", "Zola", "https://reqres.in/img/faces/11-image.jpg"⟩

/-- Six accumulated records; exactly `amy` and `bob` have an address ending in
`@gmail.com`, and `cat` has one that contains it without ending in it. -/
def sixUsers : List User := [amy, bob, cat, dan, abe, eve]

/-- Ten accumulated records. -/
def tenUsers : List User := [amy, bob, cat, dan, abe, eve, fay, gus, hal, ivy]

/-- The six records after the first page settled, with 'Gmail Users' selected. -/
def gmailState : State :=
  { initialState with users := sixUsers, loading := false, filterBy := "gmail", totalPages := 2 }

/-- The six records with 'Names starting with A' selected and a search for `MOSS`. -/
def firstLetterState : State :=
  { initialState with
    users := sixUsers, loading := false, filterBy := "first_letter_a", searchTerm := "MOSS" }

/-- A search for `émile` among `amy`, `emile` and `abe`. -/
def emileState : State :=
  { initialState with users := [amy, emile, abe], loading := false, searchTerm := "émile" }

/-- Two records with last names `Zeta` and `Alpha`, sorted by last name. -/
def lastNameState : State :=
  { initialState with users := [amy, bob], loading := false, sortBy := "last_name" }

/-- The six records sorted by last name: `bob`/`eve` and `cat`/`abe` tie. -/
def tieState : State :=
  { initialState with users := sixUsers, loading := false, sortBy := "last_name" }

/-- Ten records held on the second of three pages. -/
def secondPageState : State :=
  { initialState with users := tenUsers, loading := false, currentPage := 2, totalPages := 3 }

/-- The requests a step has issued: `fetchUsers` puts the page at the end of `pending`, and
a settlement only takes one away. -/
def issued (before after : Sys) : List Nat := after.pending.drop before.pending.length

/-- The component after a sequence of events from the mount, together with the pages
requested so far in the order of the requests (the mount requests page 1). -/
def runLogged (lowerMapping : CaseMapping) (localeCompare : String → String → Int)
    (events : List Event) : Sys × List Nat :=
  events.foldl
    (fun acc e =>
      (step lowerMapping localeCompare acc.1 e,
        acc.2 ++ issued acc.1 (step lowerMapping localeCompare acc.1 e)))
    (mount, mount.pending)

/-- The pages requested along a run, in the order of the requests. -/
def requestLog (lowerMapping : CaseMapping) (localeCompare : String → String → Int)
    (events : List Event) : List Nat :=
  (runLogged lowerMapping localeCompare events).2

/-- What holds of the component and of the pages requested so far after every sequence of
events: the requests were for pages 1, 2, 3, ... in this order, and the only request that
can be outstanding is the last one. -/
def LogInv (sys : Sys) (log : List Nat) : Prop :=
  1 ≤ sys.state.currentPage ∧
  ((sys.pending = [] ∧ errorShown sys.state = false ∧
      log = List.range' 1 sys.state.currentPage) ∨
   (sys.pending = [] ∧ errorShown sys.state = true ∧ ∃ n, log = List.range' 1 n) ∨
   (sys.pending = [1] ∧ sys.state.currentPage = 1 ∧ errorShown sys.state = false ∧
      sys.state.loading = true ∧ log = [1]) ∨
   (sys.pending = [sys.state.currentPage + 1] ∧ errorShown sys.state = false ∧
      sys.state.loading = true ∧ log = List.range' 1 (sys.state.currentPage + 1)))

/-! ## Sample runs -/

/-- The first page came back with ten records and announced two pages; 'Load More' was
then clicked, so the fetch of page 2 is outstanding. -/
def loadingSecondPage : Sys :=
  run asciiLowerMapping codeUnitCompare [.settled 1 (.ok tenUsers 2), .loadMoreClicked]

/-- The first page came back with ten records and announced a single page. -/
def allFetched : Sys :=
  run asciiLowerMapping codeUnitCompare [.settled 1 (.ok tenUsers 1)]

/-- The fetch of page 2 failed after the first page had been merged. -/
def secondPageFailed : Sys :=
  run asciiLowerMapping codeUnitCompare
    [.settled 1 (.ok tenUsers 2), .loadMoreClicked, .settled 2 (.requestFailed "NetworkError")]

/-- The first page of six records came back and announced two pages. -/
def firstPageLoaded : Sys :=
  run asciiLowerMapping codeUnitCompare [.settled 1 (.ok sixUsers 2)]

/-! ## Lemmas on the string methods -/

theorem includesChars_iff (s t : List Char) : includesChars s t = true ↔ t <:+: s := by
  induction s with
  | nil =>
    cases t <;> simp [includesChars, List.isPrefixOf]
  | cons c s ih =>
    rw [includesChars, Bool.or_eq_true, ih, List.isPrefixOf_iff_prefix, List.infix_cons_iff]

theorem includes_iff (s t : String) : includes s t = true ↔ t.data <:+: s.data :=
  includesChars_iff s.data t.data

theorem toLowerCase_empty (lowerMapping : CaseMapping) : toLowerCase lowerMapping "" = "" :=
  rfl

theorem includes_empty (lowerMapping : CaseMapping) (s : String) :
    includes s (toLowerCase lowerMapping "") = true := by
  rw [includes_iff]
  exact List.nil_infix

theorem matchesSearch_empty (lowerMapping : CaseMapping) (user : User) :
    matchesSearch lowerMapping "" user = true := by
  simp [matchesSearch, includes_empty]

theorem toLower_eq_a (c : Char) : c.toLower = 'a' ↔ c = 'a' ∨ c = 'A' := by
  constructor
  · intro h
    by_cases hc : c.toNat ≥ 65 ∧ c.toNat ≤ 90
    · right
      have h1 : Char.ofNat (c.toNat + 32) = 'a' := by
        simpa [Char.toLower, hc] using h
      have h2 : c.toNat = 65 := by
        obtain ⟨hlo, hhi⟩ := hc
        generalize c.toNat = n at h1 hlo hhi
        interval_cases n <;> first | rfl | (exfalso; revert h1; decide)
      rw [← Char.ofNat_toNat c, h2]
    · left
      simpa [Char.toLower, hc] using h
  · rintro (rfl | rfl) <;> decide

theorem sampleLowerMapping_ne_nil (before : List Char) (c : Char) (after : List Char) :
    sampleLowerMapping before c after ≠ [] := by
  unfold sampleLowerMapping
  split_ifs <;> simp

theorem sampleLowerMapping_head_a (c : Char) (after : List Char) :
    (sampleLowerMapping [] c after).head? = some 'a' ↔ c = 'a' ∨ c = 'A' := by
  unfold sampleLowerMapping
  split_ifs with h1 h2
  · subst h1
    decide
  · subst h2
    decide
  · simp [toLower_eq_a]

theorem startsWith_lower_a (lowerMapping : CaseMapping)
    (hne : ∀ before c after, lowerMapping before c after ≠ [])
    (ha : ∀ c after, (lowerMapping [] c after).head? = some 'a' ↔ c = 'a' ∨ c = 'A')
    (s : String) :
    startsWith (toLowerCase lowerMapping s) "a" = true ↔
      ∃ rest, s.data = 'a' :: rest ∨ s.data = 'A' :: rest := by
  have hlit : ("a" : String).data = ['a'] := rfl
  unfold startsWith toLowerCase
  cases hs : s.data with
  | nil => simp [hlit, lowerFrom, List.isPrefixOf]
  | cons c rest =>
    cases hm : lowerMapping [] c rest with
    | nil => exact absurd hm (hne [] c rest)
    | cons x xs =>
      have hx := ha c rest
      rw [hm] at hx
      simp only [List.head?_cons, Option.some.injEq] at hx
      simp only [lowerFrom, hm, hlit, List.cons_append, List.isPrefixOf, Bool.and_true,
        beq_iff_eq]
      constructor
      · intro h
        rcases hx.1 h.symm with rfl | rfl
        · exact ⟨rest, Or.inl rfl⟩
        · exact ⟨rest, Or.inr rfl⟩
      · rintro ⟨r, h | h⟩
        · injection h with h1 h2
          exact (hx.2 (Or.inl h1)).symm
        · injection h with h1 h2
          exact (hx.2 (Or.inr h1)).symm

theorem endsWith_includes (s t : String) (h : endsWith s t = true) : includes s t = true := by
  rw [includes_iff]
  unfold endsWith at h
  rw [List.isSuffixOf_iff_suffix] at h
  exact h.isInfix

/-! ## Lemmas on the sort -/

theorem sortInsert_perm {α : Type} (cmp : α → α → Int) (x : α) (l : List α) :
    (sortInsert cmp x l).Perm (x :: l) := by
  induction l with
  | nil => exact List.Perm.refl _
  | cons y l ih =>
    unfold sortInsert
    split
    · exact List.Perm.refl _
    · exact (ih.cons y).trans (List.Perm.swap x y l)

theorem sort_perm {α : Type} (cmp : α → α → Int) (l : List α) : (sort cmp l).Perm l := by
  induction l with
  | nil => exact List.Perm.refl _
  | cons x l ih => exact (sortInsert_perm cmp x (sort cmp l)).trans (ih.cons x)

theorem sort_length {α : Type} (cmp : α → α → Int) (l : List α) :
    (sort cmp l).length = l.length :=
  (sort_perm cmp l).length_eq

theorem sortInsert_pairwise {α : Type} (cmp : α → α → Int)
    (htotal : ∀ a b, cmp a b ≤ 0 ∨ cmp b a ≤ 0)
    (htrans : ∀ a b c, cmp a b ≤ 0 → cmp b c ≤ 0 → cmp a c ≤ 0)
    (x : α) (l : List α) (hl : l.Pairwise (fun a b => cmp a b ≤ 0)) :
    (sortInsert cmp x l).Pairwise (fun a b => cmp a b ≤ 0) := by
  induction l with
  | nil => simp [sortInsert]
  | cons y l ih =>
    rw [List.pairwise_cons] at hl
    unfold sortInsert
    split
    · rename_i hxy
      refine List.Pairwise.cons ?_ (List.Pairwise.cons hl.1 hl.2)
      intro z hz
      rcases List.mem_cons.1 hz with rfl | hz
      · exact hxy
      · exact htrans _ _ _ hxy (hl.1 z hz)
    · rename_i hxy
      have hyx : cmp y x ≤ 0 := (htotal x y).resolve_left hxy
      refine List.Pairwise.cons ?_ (ih hl.2)
      intro z hz
      rcases List.mem_cons.1 ((sortInsert_perm cmp x l).mem_iff.1 hz) with rfl | hz
      · exact hyx
      · exact hl.1 z hz

theorem sort_pairwise {α : Type} (cmp : α → α → Int)
    (htotal : ∀ a b, cmp a b ≤ 0 ∨ cmp b a ≤ 0)
    (htrans : ∀ a b c, cmp a b ≤ 0 → cmp b c ≤ 0 → cmp a c ≤ 0) (l : List α) :
    (sort cmp l).Pairwise (fun a b => cmp a b ≤ 0) := by
  induction l with
  | nil => exact List.Pairwise.nil
  | cons x l ih => exact sortInsert_pairwise cmp htotal htrans x _ ih

theorem filter_sortInsert {α : Type} (cmp : α → α → Int) (p : α → Bool) (x : α) (l : List α)
    (h : ∀ y ∈ l, p x = true → p y = true → cmp x y ≤ 0) :
    (sortInsert cmp x l).filter p = (x :: l).filter p := by
  induction l with
  | nil => rfl
  | cons y l ih =>
    have ih1 := ih (fun z hz => h z (List.mem_cons_of_mem y hz))
    unfold sortInsert
    split
    · rfl
    · rename_i hxy
      have hnot : ¬ (p x = true ∧ p y = true) := fun hp =>
        hxy (h y (List.mem_cons_self y l) hp.1 hp.2)
      rw [List.filter_cons, ih1]
      by_cases hx : p x = true
      · have hy : p y = false := by
          cases hpy : p y
          · rfl
          · exact absurd ⟨hx, hpy⟩ hnot
        simp [List.filter_cons, hx, hy]
      · simp [List.filter_cons, hx]

theorem filter_sort {α : Type} (cmp : α → α → Int) (p : α → Bool)
    (h : ∀ x y, p x = true → p y = true → cmp x y ≤ 0) (l : List α) :
    (sort cmp l).filter p = l.filter p := by
  induction l with
  | nil => rfl
  | cons x l ih =>
    show (sortInsert cmp x (sort cmp l)).filter p = (x :: l).filter p
    rw [filter_sortInsert cmp p x _ (fun y _ => h x y), List.filter_cons, List.filter_cons, ih]

/-! ## Lemmas on the window and on the comparator -/

theorem slice0_of_nonneg {α : Type} (xs : List α) (n : Nat) : slice0 xs (n : Int) = xs.take n := by
  simp [slice0]

theorem visibleWindow_eq (s : State) (h : 1 ≤ s.currentPage) :
    startIndex s + itemsPerPage = (((s.currentPage - 1) * 6 + 6 : Nat) : Int) := by
  unfold startIndex itemsPerPage
  omega

theorem paginatedUsers_eq_take (lowerMapping : CaseMapping)
    (localeCompare : String → String → Int) (s : State)
    (h : 1 ≤ s.currentPage) :
    paginatedUsers lowerMapping localeCompare s =
      (filteredAndSortedUsers lowerMapping localeCompare s).take ((s.currentPage - 1) * 6 + 6) := by
  unfold paginatedUsers
  rw [visibleWindow_eq s h, slice0_of_nonneg]

theorem filteredAndSortedUsers_perm (lowerMapping : CaseMapping)
    (localeCompare : String → String → Int) (s : State) :
    (filteredAndSortedUsers lowerMapping localeCompare s).Perm
      (s.users.filter (filterCallback lowerMapping s.searchTerm s.filterBy)) :=
  sort_perm _ _

theorem filteredAndSortedUsers_length_le (lowerMapping : CaseMapping)
    (localeCompare : String → String → Int) (s : State) :
    (filteredAndSortedUsers lowerMapping localeCompare s).length ≤ s.users.length := by
  rw [(filteredAndSortedUsers_perm lowerMapping localeCompare s).length_eq]
  exact List.length_filter_le _ _

theorem compareFn_eq_sortKey (localeCompare : String → String → Int) (sortBy : String)
    (hs : sortBy = "first_name" ∨ sortBy = "last_name" ∨ sortBy = "email") (a b : User) :
    compareFn localeCompare sortBy a b =
      localeCompare (sortKey sortBy a) (sortKey sortBy b) := by
  rcases hs with rfl | rfl | rfl <;> simp [compareFn, sortKey]

theorem compare_total (cmp : String → String → Int) (hsign : ∀ a b, 0 < cmp a b ↔ cmp b a < 0)
    (a b : String) : cmp a b ≤ 0 ∨ cmp b a ≤ 0 := by
  by_cases h : cmp a b ≤ 0
  · exact Or.inl h
  · exact Or.inr (le_of_lt ((hsign a b).1 (not_le.1 h)))

theorem compare_zero_symm (cmp : String → String → Int)
    (hsign : ∀ a b, 0 < cmp a b ↔ cmp b a < 0) (a b : String) (h : cmp a b = 0) :
    cmp b a = 0 := by
  have h1 := hsign a b
  have h2 := hsign b a
  omega

/-! ## Lemmas on the fetch state machine -/

theorem fetchUsers_settle_ok (page : Nat) (data : List User) (total_pages : Nat) (s : State) :
    fetchUsers_settle page (.ok data total_pages) s =
      .ok { s with
        users := if page = 1 then data else s.users ++ data
        totalPages := total_pages
        currentPage := page
        loading := false } := rfl

theorem fetchUsers_settle_requestFailed (page : Nat) (reason : String) (s : State) :
    fetchUsers_settle page (.requestFailed reason) s =
      .ok { s with error := some fetchErrorMessage, loading := false } := rfl

theorem fetchUsers_settle_parseFailed (page : Nat) (reason : String) (s : State) :
    fetchUsers_settle page (.parseFailed reason) s =
      .ok { s with error := some fetchErrorMessage, loading := false } := rfl

theorem fetchUsers_settle_eq (page : Nat) (o : FetchOutcome) (s : State) :
    fetchUsers_settle page o s = .ok (settledState page o s) := by
  cases o <;> rfl

theorem settle_of_mem (page : Nat) (o : FetchOutcome) (sys : Sys) (h : page ∈ sys.pending) :
    settle page o sys =
      { state := settledState page o sys.state, pending := sys.pending.erase page } := by
  unfold settle
  rw [if_pos h, fetchUsers_settle_eq]

theorem settle_of_not_mem (page : Nat) (o : FetchOutcome) (sys : Sys)
    (h : page ∉ sys.pending) : settle page o sys = sys := by
  unfold settle
  rw [if_neg h]

theorem errorShown_fetchErrorMessage (s : State) (h : s.error = some fetchErrorMessage) :
    errorShown s = true := by
  unfold errorShown
  rw [h]
  decide

theorem errorShown_settledState (page : Nat) (o : FetchOutcome) (s : State)
    (h : errorShown s = true) : errorShown (settledState page o s) = true := by
  cases o with
  | ok data total_pages => exact h
  | requestFailed reason => exact errorShown_fetchErrorMessage _ rfl
  | parseFailed reason => exact errorShown_fetchErrorMessage _ rfl

theorem loadMoreRendered_of_errorShown (lowerMapping : CaseMapping)
    (localeCompare : String → String → Int) (s : State)
    (h : errorShown s = true) : loadMoreRendered lowerMapping localeCompare s = false := by
  simp [loadMoreRendered, h]

theorem clickLoadMore_of_loading (lowerMapping : CaseMapping)
    (localeCompare : String → String → Int) (sys : Sys)
    (h : sys.state.loading = true) : clickLoadMore lowerMapping localeCompare sys = sys := by
  simp [clickLoadMore, loadMoreDisabled, h]

theorem clickLoadMore_of_not_rendered (lowerMapping : CaseMapping)
    (localeCompare : String → String → Int) (sys : Sys)
    (h : loadMoreRendered lowerMapping localeCompare sys.state = false) :
    clickLoadMore lowerMapping localeCompare sys = sys := by
  simp [clickLoadMore, h]

theorem loadMoreUsers_of_lt (sys : Sys) (h : sys.state.currentPage < sys.state.totalPages) :
    loadMoreUsers sys =
      { state := { sys.state with loading := true },
        pending := sys.pending ++ [sys.state.currentPage + 1] } := by
  unfold loadMoreUsers
  rw [if_pos h]
  rfl

theorem loadMoreUsers_of_ge (sys : Sys) (h : sys.state.totalPages ≤ sys.state.currentPage) :
    loadMoreUsers sys = sys := by
  unfold loadMoreUsers
  rw [if_neg (by omega)]

theorem inv_mount : Inv mount :=
  ⟨by decide, Or.inr (Or.inl ⟨rfl, rfl, rfl, rfl⟩)⟩

theorem inv_settle (page : Nat) (o : FetchOutcome) (sys : Sys) (h : Inv sys) :
    Inv (settle page o sys) := by
  by_cases hp : page ∈ sys.pending
  · rw [settle_of_mem page o sys hp]
    obtain ⟨hpos, hpend | ⟨hpend, -, -, -⟩ | ⟨hpend, -⟩⟩ := h
    · rw [hpend] at hp
      simp at hp
    · rw [hpend] at hp ⊢
      have hp1 : page = 1 := by simpa using hp
      subst hp1
      refine ⟨?_, Or.inl (by simp)⟩
      cases o <;> simp [settledState, hpos]
    · rw [hpend] at hp ⊢
      have hp1 : page = sys.state.currentPage + 1 := by simpa using hp
      subst hp1
      refine ⟨?_, Or.inl (by simp)⟩
      cases o <;> simp [settledState, hpos]
  · rw [settle_of_not_mem page o sys hp]
    exact h

theorem inv_clickLoadMore (lowerMapping : CaseMapping)
    (localeCompare : String → String → Int) (sys : Sys) (h : Inv sys) :
    Inv (clickLoadMore lowerMapping localeCompare sys) := by
  by_cases hl : sys.state.loading = true
  · rw [clickLoadMore_of_loading lowerMapping localeCompare sys hl]
    exact h
  · unfold clickLoadMore
    split
    · by_cases hlt : sys.state.currentPage < sys.state.totalPages
      · rw [loadMoreUsers_of_lt sys hlt]
        obtain ⟨hpos, hpend | ⟨-, -, -, hload⟩ | ⟨-, hload⟩⟩ := h
        · exact ⟨hpos, Or.inr (Or.inr ⟨by simp [hpend], rfl⟩)⟩
        · exact absurd hload hl
        · exact absurd hload hl
      · rw [loadMoreUsers_of_ge sys (by omega)]
        exact h
    · exact h

theorem inv_step (lowerMapping : CaseMapping)
    (localeCompare : String → String → Int) (sys : Sys) (e : Event)
    (h : Inv sys) : Inv (step lowerMapping localeCompare sys e) := by
  cases e with
  | settled page o => exact inv_settle page o sys h
  | loadMoreClicked => exact inv_clickLoadMore lowerMapping localeCompare sys h
  | searchTermChanged v =>
    simp only [step]
    split
    · exact h
    · exact h
  | sortByChanged v =>
    simp only [step]
    split
    · exact h
    · exact h
  | filterByChanged v =>
    simp only [step]
    split
    · exact h
    · exact h

theorem inv_foldl (lowerMapping : CaseMapping)
    (localeCompare : String → String → Int) (events : List Event) :
    ∀ sys : Sys, Inv sys → Inv (events.foldl (step lowerMapping localeCompare) sys) := by
  induction events with
  | nil => exact fun _ h => h
  | cons e events ih => exact fun sys h => ih _ (inv_step lowerMapping localeCompare sys e h)

theorem inv_run (lowerMapping : CaseMapping)
    (localeCompare : String → String → Int) (events : List Event) :
    Inv (run lowerMapping localeCompare events) :=
  inv_foldl lowerMapping localeCompare events mount inv_mount

/-! ## The filter step -/

/-- C1: with `filterBy` one of `'all'` and `'first_letter_a'`, the filter callback keeps a
record exactly when the lower-cased search term is a substring of its lower-cased first
name, last name or e-mail, and `filterBy` is `'all'` or the first name starts with `a` or
`A`; `filteredAndSortedUsers` holds exactly the kept members of `users`, each as often as
the filter keeps it, so the sort adds, drops and duplicates nothing. The case conversion is
any mapping of code points in context that maps no code point to nothing and, at the start
of a string, maps exactly `a` and `A` to something beginning with `a`. -/
theorem filter_all_and_first_letter_a (lowerMapping : CaseMapping)
    (localeCompare : String → String → Int) (s : State)
    (hne : ∀ before c after, lowerMapping before c after ≠ [])
    (ha : ∀ c after, (lowerMapping [] c after).head? = some 'a' ↔ c = 'a' ∨ c = 'A')
    (hf : s.filterBy = "all" ∨ s.filterBy = "first_letter_a") :
    (∀ r : User, filterCallback lowerMapping s.searchTerm s.filterBy r = true ↔
      (((toLowerCase lowerMapping s.searchTerm).data <:+:
          (toLowerCase lowerMapping r.first_name).data ∨
        (toLowerCase lowerMapping s.searchTerm).data <:+:
          (toLowerCase lowerMapping r.last_name).data ∨
        (toLowerCase lowerMapping s.searchTerm).data <:+:
          (toLowerCase lowerMapping r.email).data) ∧
       (s.filterBy = "all" ∨
        ∃ rest, r.first_name.data = 'a' :: rest ∨ r.first_name.data = 'A' :: rest))) ∧
    (∀ r : User, r ∈ filteredAndSortedUsers lowerMapping localeCompare s ↔
      r ∈ s.users ∧ filterCallback lowerMapping s.searchTerm s.filterBy r = true) ∧
    (∀ r : User, (filteredAndSortedUsers lowerMapping localeCompare s).count r =
      (s.users.filter (filterCallback lowerMapping s.searchTerm s.filterBy)).count r) ∧
    (filteredAndSortedUsers lowerMapping localeCompare s).length =
      (s.users.filter (filterCallback lowerMapping s.searchTerm s.filterBy)).length := by
  have hperm := filteredAndSortedUsers_perm lowerMapping localeCompare s
  refine ⟨?_, ?_, ?_, hperm.length_eq⟩
  · intro r
    have hm : matchesSearch lowerMapping s.searchTerm r = true ↔
        ((toLowerCase lowerMapping s.searchTerm).data <:+:
          (toLowerCase lowerMapping r.first_name).data ∨
        (toLowerCase lowerMapping s.searchTerm).data <:+:
          (toLowerCase lowerMapping r.last_name).data ∨
        (toLowerCase lowerMapping s.searchTerm).data <:+:
          (toLowerCase lowerMapping r.email).data) := by
      simp only [matchesSearch, Bool.or_eq_true, includes_iff, or_assoc]
    rcases hf with hf | hf
    · simp only [filterCallback, hf, if_true, hm, true_or, and_true]
    · have hne1 : ¬ ("first_letter_a" = "all") := by decide
      have hne2 : ¬ ("first_letter_a" = "gmail") := by decide
      simp only [filterCallback, hf, hne1, hne2, if_false, if_true, Bool.and_eq_true, hm,
        startsWith_lower_a lowerMapping hne ha, false_or]
  · intro r
    rw [hperm.mem_iff, List.mem_filter]
  · intro r
    exact hperm.count_eq r

/-- Witness for C1: under a case mapping that also lower-cases `É`, the search term `émile`
keeps `emile` (first name `Émile`), and 'Names starting with A' with the search term `MOSS`
on the six sample records keeps `abe` only. -/
theorem filter_all_and_first_letter_a_witness :
    (∀ before c after, sampleLowerMapping before c after ≠ []) ∧
    (∀ c after, (sampleLowerMapping [] c after).head? = some 'a' ↔ c = 'a' ∨ c = 'A') ∧
    (emileState.filterBy = "all" ∨ emileState.filterBy = "first_letter_a") ∧
    (emile ∈ filteredAndSortedUsers sampleLowerMapping codeUnitCompare emileState ↔
      emile ∈ emileState.users ∧
        filterCallback sampleLowerMapping emileState.searchTerm emileState.filterBy emile =
          true) ∧
    filteredAndSortedUsers sampleLowerMapping codeUnitCompare emileState = [emile] ∧
    filteredAndSortedUsers sampleLowerMapping codeUnitCompare firstLetterState = [abe] :=
  ⟨sampleLowerMapping_ne_nil, sampleLowerMapping_head_a, by decide,
   (filter_all_and_first_letter_a sampleLowerMapping codeUnitCompare emileState
      sampleLowerMapping_ne_nil sampleLowerMapping_head_a (by decide)).2.1 emile,
   by decide, by decide⟩

/-- C2, as stated, fails: with 'Gmail Users' selected, an empty search term and window 6,
the six sample records, of which exactly two have an address ending in `@gmail.com`, give
three visible records, one of them with an address that does not end in `@gmail.com`. -/
theorem gmail_ends_with_counterexample :
    gmailState.filterBy = "gmail" ∧ gmailState.searchTerm = "" ∧
    gmailState.users.length = 6 ∧ visibleWindow gmailState = 6 ∧
    (gmailState.users.filter (fun r => endsWith r.email "@gmail.com")).length = 2 ∧
    (paginatedUsers asciiLowerMapping codeUnitCompare gmailState).length = 3 ∧
    (filteredAndSortedUsers asciiLowerMapping codeUnitCompare gmailState).length = 3 ∧
    cat ∈ filteredAndSortedUsers asciiLowerMapping codeUnitCompare gmailState ∧
    endsWith cat.email "@gmail.com" = false := by
  decide

/-- C2, amended: with `filterBy = 'gmail'`, a record is in `filteredAndSortedUsers` exactly
when it is in `users`, matches the search term and its e-mail contains `@gmail.com`; every
matching record whose e-mail ends with `@gmail.com` is in the result; and for 6 records of
which exactly 2 have an e-mail containing `@gmail.com`, with an empty search term on the
first page, the visible result and the filtered result both have exactly 2 entries. -/
theorem gmail_contains (lowerMapping : CaseMapping)
    (localeCompare : String → String → Int) (s : State)
    (hf : s.filterBy = "gmail") :
    (∀ r : User, r ∈ filteredAndSortedUsers lowerMapping localeCompare s ↔
      r ∈ s.users ∧ matchesSearch lowerMapping s.searchTerm r = true ∧
        ("@gmail.com" : String).data <:+: r.email.data) ∧
    (∀ r : User, r ∈ s.users → matchesSearch lowerMapping s.searchTerm r = true →
      endsWith r.email "@gmail.com" = true → r ∈ filteredAndSortedUsers lowerMapping localeCompare s) ∧
    (s.users.length = 6 → s.searchTerm = "" → s.currentPage = 1 →
      (s.users.filter (fun r => includes r.email "@gmail.com")).length = 2 →
      (paginatedUsers lowerMapping localeCompare s).length = 2 ∧
        (filteredAndSortedUsers lowerMapping localeCompare s).length = 2) := by
  have hperm := filteredAndSortedUsers_perm lowerMapping localeCompare s
  have hne : ¬ ("gmail" = "all") := by decide
  have hcb : ∀ r : User, filterCallback lowerMapping s.searchTerm s.filterBy r =
      (matchesSearch lowerMapping s.searchTerm r && includes r.email "@gmail.com") := by
    intro r
    simp only [filterCallback, hf, hne, if_false, if_true]
  have hmem : ∀ r : User, r ∈ filteredAndSortedUsers lowerMapping localeCompare s ↔
      r ∈ s.users ∧ matchesSearch lowerMapping s.searchTerm r = true ∧
        ("@gmail.com" : String).data <:+: r.email.data := by
    intro r
    rw [hperm.mem_iff, List.mem_filter, hcb, Bool.and_eq_true, includes_iff]
  refine ⟨hmem, ?_, ?_⟩
  · intro r hr hm he
    exact (hmem r).2 ⟨hr, hm, (includes_iff _ _).1 (endsWith_includes _ _ he)⟩
  · intro _ hsearch hpage hcount
    have hfun : filterCallback lowerMapping s.searchTerm s.filterBy =
        (fun r => includes r.email "@gmail.com") := by
      funext r
      rw [hcb, hsearch, matchesSearch_empty, Bool.true_and]
    have hlen : (filteredAndSortedUsers lowerMapping localeCompare s).length = 2 := by
      rw [hperm.length_eq, hfun, hcount]
    refine ⟨?_, hlen⟩
    rw [paginatedUsers_eq_take lowerMapping localeCompare s (by omega), List.length_take, hlen, hpage]
    rfl

/-- Witness for C2 (amended): `amy` and `bob` with four records whose address is at
`reqres.in`. -/
theorem gmail_contains_witness :
    ({ gmailState with users := [amy, bob, dan, abe, eve, fay] } : State).filterBy = "gmail" ∧
    (paginatedUsers asciiLowerMapping codeUnitCompare
        { gmailState with users := [amy, bob, dan, abe, eve, fay] }).length = 2 ∧
    (filteredAndSortedUsers asciiLowerMapping codeUnitCompare
        { gmailState with users := [amy, bob, dan, abe, eve, fay] }).length = 2 :=
  ⟨by decide,
   (gmail_contains asciiLowerMapping codeUnitCompare { gmailState with users := [amy, bob, dan, abe, eve, fay] }
      (by decide)).2.2 (by decide) (by decide) (by decide) (by decide)⟩

/-! ## The sort step and the window -/

/-- C3: for a consistent `localeCompare` and `sortBy` one of the three options,
`filteredAndSortedUsers` is a rearrangement of the filtered list, ascending in the selected
field, and stable: the records whose selected field compares equal to any given string
appear in exactly the order they have in the filtered `users`, so any two of them that
follow each other in `users` still do. With `sortBy = 'last_name'`, two filtered records
with last names `Zeta`, `Alpha` (and `Zeta` comparing after `Alpha`) come out as
`Alpha`, `Zeta`. -/
theorem sort_ascending_stable (lowerMapping : CaseMapping)
    (localeCompare : String → String → Int) (s : State)
    (hsign : ∀ a b, 0 < localeCompare a b ↔ localeCompare b a < 0)
    (htrans : ∀ a b c, localeCompare a b ≤ 0 → localeCompare b c ≤ 0 → localeCompare a c ≤ 0)
    (hs : s.sortBy = "first_name" ∨ s.sortBy = "last_name" ∨ s.sortBy = "email") :
    (filteredAndSortedUsers lowerMapping localeCompare s).Perm
      (s.users.filter (filterCallback lowerMapping s.searchTerm s.filterBy)) ∧
    (filteredAndSortedUsers lowerMapping localeCompare s).Pairwise
      (fun a b => localeCompare (sortKey s.sortBy a) (sortKey s.sortBy b) ≤ 0) ∧
    (∀ k : String,
      (filteredAndSortedUsers lowerMapping localeCompare s).filter
          (fun r => localeCompare (sortKey s.sortBy r) k == 0) =
        (s.users.filter (filterCallback lowerMapping s.searchTerm s.filterBy)).filter
          (fun r => localeCompare (sortKey s.sortBy r) k == 0)) ∧
    (∀ a b : User, localeCompare (sortKey s.sortBy a) (sortKey s.sortBy b) = 0 →
      filterCallback lowerMapping s.searchTerm s.filterBy a = true →
      filterCallback lowerMapping s.searchTerm s.filterBy b = true →
      List.Sublist [a, b] s.users →
      List.Sublist [a, b] (filteredAndSortedUsers lowerMapping localeCompare s)) ∧
    (s.sortBy = "last_name" → ∀ z a : User, z.last_name = "Zeta" → a.last_name = "Alpha" →
      0 < localeCompare "Zeta" "Alpha" →
      s.users.filter (filterCallback lowerMapping s.searchTerm s.filterBy) = [z, a] →
      filteredAndSortedUsers lowerMapping localeCompare s = [a, z]) := by
  have hcmp : compareFn localeCompare s.sortBy =
      fun a b => localeCompare (sortKey s.sortBy a) (sortKey s.sortBy b) := by
    funext a b
    exact compareFn_eq_sortKey localeCompare s.sortBy hs a b
  have hstable : ∀ k : String,
      (filteredAndSortedUsers lowerMapping localeCompare s).filter
          (fun r => localeCompare (sortKey s.sortBy r) k == 0) =
        (s.users.filter (filterCallback lowerMapping s.searchTerm s.filterBy)).filter
          (fun r => localeCompare (sortKey s.sortBy r) k == 0) := by
    intro k
    unfold filteredAndSortedUsers
    apply filter_sort
    intro x y hx hy
    rw [hcmp]
    have hx0 : localeCompare (sortKey s.sortBy x) k = 0 := by simpa using hx
    have hy0 : localeCompare (sortKey s.sortBy y) k = 0 := by simpa using hy
    exact htrans _ k _ (le_of_eq hx0)
      (le_of_eq (compare_zero_symm localeCompare hsign _ _ hy0))
  refine ⟨filteredAndSortedUsers_perm lowerMapping localeCompare s, ?_, hstable, ?_, ?_⟩
  · unfold filteredAndSortedUsers
    rw [hcmp]
    exact sort_pairwise (fun a b => localeCompare (sortKey s.sortBy a) (sortKey s.sortBy b))
      (fun a b => compare_total localeCompare hsign (sortKey s.sortBy a) (sortKey s.sortBy b))
      (fun a b c => htrans (sortKey s.sortBy a) (sortKey s.sortBy b) (sortKey s.sortBy c)) _
  · intro a b hab hka hkb hsub0
    have hsub : List.Sublist [a, b] (s.users.filter (filterCallback lowerMapping s.searchTerm s.filterBy)) := by
      have h0 := hsub0.filter (filterCallback lowerMapping s.searchTerm s.filterBy)
      simpa [List.filter_cons, hka, hkb] using h0
    have h1 := hsub.filter (fun r => localeCompare (sortKey s.sortBy r) (sortKey s.sortBy b) == 0)
    have hb : localeCompare (sortKey s.sortBy b) (sortKey s.sortBy b) = 0 := by
      have := hsign (sortKey s.sortBy b) (sortKey s.sortBy b)
      omega
    rw [← hstable] at h1
    have h2 : [a, b].filter
        (fun r => localeCompare (sortKey s.sortBy r) (sortKey s.sortBy b) == 0) = [a, b] := by
      simp [List.filter_cons, hab, hb]
    rw [h2] at h1
    exact h1.trans (List.filter_sublist _)
  · intro hl z a hz ha hza hfil
    unfold filteredAndSortedUsers
    rw [hfil]
    have hc : ¬ compareFn localeCompare s.sortBy z a ≤ 0 := by
      have hne : ¬ ("last_name" = "first_name") := by decide
      simp only [compareFn, hl, hne, if_false, if_true, hz, ha]
      omega
    simp [sort, sortInsert, hc]

theorem compareChars_sign (a b : List Char) : 0 < compareChars a b ↔ compareChars b a < 0 := by
  induction a generalizing b with
  | nil => cases b <;> simp [compareChars]
  | cons x a ih =>
    cases b with
    | nil => simp [compareChars]
    | cons y b =>
      simp only [compareChars]
      have := ih b
      split_ifs <;> omega

theorem compareChars_trans (a b c : List Char) (hab : compareChars a b ≤ 0)
    (hbc : compareChars b c ≤ 0) : compareChars a c ≤ 0 := by
  induction a generalizing b c with
  | nil => cases c <;> simp [compareChars]
  | cons x a ih =>
    cases b with
    | nil => simp [compareChars] at hab
    | cons y b =>
      cases c with
      | nil => simp [compareChars] at hbc
      | cons z c =>
        simp only [compareChars] at hab hbc ⊢
        have := ih b c
        split_ifs at hab hbc ⊢ <;> omega

/-- Witness for C3: under the code-unit collation the six sample records sorted by last
name come out ascending, with the ties `bob`/`eve` and `cat`/`abe` in their input order,
and `[Zeta, Alpha]` comes out as `[Alpha, Zeta]`. -/
theorem sort_ascending_stable_witness :
    (tieState.sortBy = "first_name" ∨ tieState.sortBy = "last_name" ∨
      tieState.sortBy = "email") ∧
    codeUnitCompare (sortKey tieState.sortBy cat) (sortKey tieState.sortBy abe) = 0 ∧
    List.Sublist [cat, abe] (filteredAndSortedUsers asciiLowerMapping codeUnitCompare tieState) ∧
    filteredAndSortedUsers asciiLowerMapping codeUnitCompare tieState = [bob, eve, dan, cat, abe, amy] ∧
    filteredAndSortedUsers asciiLowerMapping codeUnitCompare lastNameState = [bob, amy] :=
  ⟨by decide, by decide,
   (sort_ascending_stable asciiLowerMapping codeUnitCompare tieState
      (fun a b => compareChars_sign a.data b.data)
      (fun a b c => compareChars_trans a.data b.data c.data) (by decide)).2.2.2.1 cat abe
      (by decide) (by decide) (by decide) (by decide),
   by decide, by decide⟩

/-- C4: with `currentPage ≥ 1`, `paginatedUsers` is the first `(currentPage - 1) * 6 + 6`
records of `filteredAndSortedUsers` in the same order, and its length is the minimum of
that window and the number of filtered records. -/
theorem paginated_is_window (lowerMapping : CaseMapping)
    (localeCompare : String → String → Int) (s : State)
    (hpage : 1 ≤ s.currentPage) :
    visibleWindow s = (((s.currentPage - 1) * 6 + 6 : Nat) : Int) ∧
    paginatedUsers lowerMapping localeCompare s =
      (filteredAndSortedUsers lowerMapping localeCompare s).take ((s.currentPage - 1) * 6 + 6) ∧
    paginatedUsers lowerMapping localeCompare s <+: filteredAndSortedUsers lowerMapping localeCompare s ∧
    (paginatedUsers lowerMapping localeCompare s).length =
      min ((s.currentPage - 1) * 6 + 6) (filteredAndSortedUsers lowerMapping localeCompare s).length := by
  have h := paginatedUsers_eq_take lowerMapping localeCompare s hpage
  refine ⟨visibleWindow_eq s hpage, h, ?_, ?_⟩
  · rw [h]
    exact List.take_prefix _ _
  · rw [h, List.length_take]

/-- Witness for C4: ten records on the first page show six, on the second page all ten. -/
theorem paginated_is_window_witness :
    1 ≤ secondPageState.currentPage ∧
    (paginatedUsers asciiLowerMapping codeUnitCompare secondPageState).length =
      min ((secondPageState.currentPage - 1) * 6 + 6)
        (filteredAndSortedUsers asciiLowerMapping codeUnitCompare secondPageState).length ∧
    (paginatedUsers asciiLowerMapping codeUnitCompare secondPageState).length = 10 ∧
    (paginatedUsers asciiLowerMapping codeUnitCompare { secondPageState with currentPage := 1 }).length = 6 :=
  ⟨by decide, (paginated_is_window asciiLowerMapping codeUnitCompare secondPageState (by decide)).2.2.2,
   by decide, by decide⟩

/-! ## Fetching -/

/-- C5: in every state reached from the mount, when an outstanding fetch (of page 1 into
the empty initial list, or of `currentPage + 1` started by `loadMoreUsers`) succeeds with
`{data, total_pages}`, then afterwards `users` is the old `users` followed by `data`,
`totalPages` is `total_pages`, `currentPage` is the fetched page number and `loading` is
false. -/
theorem fetch_success_appends (lowerMapping : CaseMapping)
    (localeCompare : String → String → Int) (events : List Event)
    (page : Nat) (data : List User) (total_pages : Nat)
    (hp : page ∈ (run lowerMapping localeCompare events).pending) :
    (page = 1 ∧ (run lowerMapping localeCompare events).state.users = [] ∧
        (run lowerMapping localeCompare events).state.currentPage = 1 ∨
      page = (run lowerMapping localeCompare events).state.currentPage + 1) ∧
    (settle page (.ok data total_pages) (run lowerMapping localeCompare events)).state.users =
      (run lowerMapping localeCompare events).state.users ++ data ∧
    (settle page (.ok data total_pages) (run lowerMapping localeCompare events)).state.totalPages =
      total_pages ∧
    (settle page (.ok data total_pages) (run lowerMapping localeCompare events)).state.currentPage = page ∧
    (settle page (.ok data total_pages) (run lowerMapping localeCompare events)).state.loading = false ∧
    (settle page (.ok data total_pages) (run lowerMapping localeCompare events)).pending = [] := by
  have hinv := inv_run lowerMapping localeCompare events
  generalize run lowerMapping localeCompare events = sys at hp hinv ⊢
  rw [settle_of_mem page _ sys hp]
  obtain ⟨hpos, hpend | ⟨hpend, husers, hcur, -⟩ | ⟨hpend, -⟩⟩ := hinv
  · rw [hpend] at hp
    simp at hp
  · rw [hpend] at hp ⊢
    have hp1 : page = 1 := by simpa using hp
    subst hp1
    simp [settledState, husers, hcur]
  · rw [hpend] at hp ⊢
    have hp1 : page = sys.state.currentPage + 1 := by simpa using hp
    subst hp1
    have hne : ¬ (sys.state.currentPage = 0) := by omega
    simp [settledState, hne]

/-- Witness for C5: page 2 arrives with two more records while ten are held. -/
theorem fetch_success_appends_witness :
    2 ∈ loadingSecondPage.pending ∧
    (settle 2 (.ok [amy, bob] 2) loadingSecondPage).state.users = tenUsers ++ [amy, bob] ∧
    (settle 2 (.ok [amy, bob] 2) loadingSecondPage).state.currentPage = 2 ∧
    (settle 1 (.ok sixUsers 2) mount).state.users = sixUsers :=
  ⟨by decide,
   (fetch_success_appends asciiLowerMapping codeUnitCompare
      [.settled 1 (.ok tenUsers 2), .loadMoreClicked] 2 [amy, bob] 2 (by decide)).2.1,
   (fetch_success_appends asciiLowerMapping codeUnitCompare
      [.settled 1 (.ok tenUsers 2), .loadMoreClicked] 2 [amy, bob] 2 (by decide)).2.2.2.1,
   by decide⟩

/-- C6: for every state and page number, when the request or the JSON parse of
`fetchUsers(page)` throws, the call completes normally (nothing is thrown to the caller)
and leaves `users`, `currentPage` and `totalPages` as they were, with `error` set to the
non-empty message and `loading` false. -/
theorem fetch_failure_keeps_state (s : State) (page : Nat) (reason : String)
    (o : FetchOutcome) (ho : o = .requestFailed reason ∨ o = .parseFailed reason) :
    ∃ s' : State, fetchUsers_settle page o (fetchUsers_start s) = .ok s' ∧
      s'.users = s.users ∧ s'.currentPage = s.currentPage ∧ s'.totalPages = s.totalPages ∧
      s'.error = some fetchErrorMessage ∧ errorShown s' = true ∧ s'.loading = false ∧
      s'.searchTerm = s.searchTerm ∧ s'.sortBy = s.sortBy ∧ s'.filterBy = s.filterBy := by
  rcases ho with rfl | rfl
  · exact ⟨_, fetchUsers_settle_requestFailed page reason _, rfl, rfl, rfl, rfl,
      errorShown_fetchErrorMessage _ rfl, rfl, rfl, rfl, rfl⟩
  · exact ⟨_, fetchUsers_settle_parseFailed page reason _, rfl, rfl, rfl, rfl,
      errorShown_fetchErrorMessage _ rfl, rfl, rfl, rfl, rfl⟩

/-- Witness for C6: the fetch of page 2 fails while ten records are held. -/
theorem fetch_failure_keeps_state_witness :
    (FetchOutcome.requestFailed "NetworkError" = .requestFailed "NetworkError" ∨
      FetchOutcome.requestFailed "NetworkError" = .parseFailed "NetworkError") ∧
    (∃ s' : State,
      fetchUsers_settle 2 (.requestFailed "NetworkError")
          (fetchUsers_start allFetched.state) = .ok s' ∧
      s'.users = allFetched.state.users ∧ s'.currentPage = allFetched.state.currentPage ∧
      s'.totalPages = allFetched.state.totalPages ∧
      s'.error = some fetchErrorMessage ∧ errorShown s' = true ∧ s'.loading = false ∧
      s'.searchTerm = allFetched.state.searchTerm ∧ s'.sortBy = allFetched.state.sortBy ∧
      s'.filterBy = allFetched.state.filterBy) ∧
    secondPageFailed.state.users = tenUsers ∧ secondPageFailed.state.currentPage = 1 :=
  ⟨Or.inl rfl,
   fetch_failure_keeps_state allFetched.state 2 "NetworkError" (.requestFailed "NetworkError")
     (Or.inl rfl),
   by decide, by decide⟩

/-- C7, as stated, fails: after the failed fetch of page 2, a direct call of
`loadMoreUsers` re-attempts page 2 and the request succeeds, yet `error` still holds its
message and the error screen stays; the button to ask for more is not even rendered, and
after a failed first load `loadMoreUsers` starts nothing. -/
theorem failed_is_absorbing_counterexample :
    errorShown secondPageFailed.state = true ∧
    (loadMoreUsers secondPageFailed).pending = [2] ∧
    (settle 2 (.ok [fay, gus] 2) (loadMoreUsers secondPageFailed)).state.users =
      tenUsers ++ [fay, gus] ∧
    (settle 2 (.ok [fay, gus] 2) (loadMoreUsers secondPageFailed)).state.loading = false ∧
    (settle 2 (.ok [fay, gus] 2) (loadMoreUsers secondPageFailed)).state.error =
      some fetchErrorMessage ∧
    (settle 2 (.ok [fay, gus] 2) (loadMoreUsers secondPageFailed)).state.error ≠ none ∧
    clickLoadMore asciiLowerMapping codeUnitCompare secondPageFailed = secondPageFailed ∧
    errorShown (settle 1 (.requestFailed "NetworkError") mount).state = true ∧
    loadMoreUsers (settle 1 (.requestFailed "NetworkError") mount) =
      settle 1 (.requestFailed "NetworkError") mount := by
  decide

/-- C7, amended: from a state whose `error` is set, `loadMoreUsers` does not consult `error`
and, called with `currentPage < totalPages`, re-attempts the fetch of `currentPage + 1`;
when that fetch succeeds the records are appended, `totalPages` and `currentPage` are
updated and `loading` is false, but `error` keeps its message. The error screen renders no
'Load More' button, and no event ever clears `error`: Failed is absorbing. -/
theorem failed_is_absorbing (lowerMapping : CaseMapping)
    (localeCompare : String → String → Int) (sys : Sys)
    (herr : errorShown sys.state = true) :
    clickLoadMore lowerMapping localeCompare sys = sys ∧
    (∀ e : Event, errorShown (step lowerMapping localeCompare sys e).state = true) ∧
    (sys.state.currentPage < sys.state.totalPages → 1 ≤ sys.state.currentPage →
      (loadMoreUsers sys).pending = sys.pending ++ [sys.state.currentPage + 1] ∧
      ∀ (data : List User) (total_pages : Nat),
        (settle (sys.state.currentPage + 1) (.ok data total_pages)
            (loadMoreUsers sys)).state.users = sys.state.users ++ data ∧
        (settle (sys.state.currentPage + 1) (.ok data total_pages)
            (loadMoreUsers sys)).state.totalPages = total_pages ∧
        (settle (sys.state.currentPage + 1) (.ok data total_pages)
            (loadMoreUsers sys)).state.currentPage = sys.state.currentPage + 1 ∧
        (settle (sys.state.currentPage + 1) (.ok data total_pages)
            (loadMoreUsers sys)).state.loading = false ∧
        (settle (sys.state.currentPage + 1) (.ok data total_pages)
            (loadMoreUsers sys)).state.error = sys.state.error ∧
        errorShown (settle (sys.state.currentPage + 1) (.ok data total_pages)
            (loadMoreUsers sys)).state = true) := by
  have hclick : clickLoadMore lowerMapping localeCompare sys = sys :=
    clickLoadMore_of_not_rendered lowerMapping localeCompare sys
      (loadMoreRendered_of_errorShown lowerMapping localeCompare sys.state herr)
  refine ⟨hclick, ?_, ?_⟩
  · intro e
    cases e with
    | settled page o =>
      show errorShown (settle page o sys).state = true
      by_cases hp : page ∈ sys.pending
      · rw [settle_of_mem page o sys hp]
        exact errorShown_settledState page o sys.state herr
      · rw [settle_of_not_mem page o sys hp]
        exact herr
    | loadMoreClicked =>
      show errorShown (clickLoadMore lowerMapping localeCompare sys).state = true
      rw [hclick]
      exact herr
    | searchTermChanged v => simp [step, controlsRendered, herr]
    | sortByChanged v => simp [step, controlsRendered, herr]
    | filterByChanged v => simp [step, controlsRendered, herr]
  · intro hlt hpos
    rw [loadMoreUsers_of_lt sys hlt]
    refine ⟨rfl, ?_⟩
    intro data total_pages
    rw [settle_of_mem _ _ _ (by simp)]
    have hne : ¬ (sys.state.currentPage = 0) := by omega
    simp [settledState, hne]
    exact herr

/-- Witness for C7 (amended): the state after the failed fetch of page 2. -/
theorem failed_is_absorbing_witness :
    errorShown secondPageFailed.state = true ∧
    clickLoadMore asciiLowerMapping codeUnitCompare secondPageFailed = secondPageFailed ∧
    errorShown (step asciiLowerMapping codeUnitCompare secondPageFailed
      (.settled 2 (.ok [fay, gus] 2))).state = true :=
  ⟨by decide,
   (failed_is_absorbing asciiLowerMapping codeUnitCompare secondPageFailed (by decide)).1,
   (failed_is_absorbing asciiLowerMapping codeUnitCompare secondPageFailed (by decide)).2.1 _⟩

/-! ## Asking for more -/

/-- C8, as stated, fails: with ten matching records all fetched (`currentPage = totalPages
= 1`), six of them visible, `loadMoreUsers` starts no fetch but leaves the window at 6
instead of raising it to 12. -/
theorem load_more_window_counterexample :
    allFetched.state.currentPage = allFetched.state.totalPages ∧
    visibleWindow allFetched.state = 6 ∧
    (filteredAndSortedUsers asciiLowerMapping codeUnitCompare allFetched.state).length = 10 ∧
    (paginatedUsers asciiLowerMapping codeUnitCompare allFetched.state).length = 6 ∧
    (loadMoreUsers allFetched).pending = [] ∧
    visibleWindow (loadMoreUsers allFetched).state = 6 ∧
    visibleWindow (loadMoreUsers allFetched).state ≠ 12 ∧
    (paginatedUsers asciiLowerMapping codeUnitCompare (loadMoreUsers allFetched).state).length = 6 := by
  decide

/-- C8, amended: `loadMoreUsers` never changes the window by itself. With `currentPage ≥
totalPages` it changes nothing and starts no fetch. With `currentPage < totalPages` it
starts the fetch of page `currentPage + 1` and leaves the window unchanged; the window
grows by exactly 6 when that fetch succeeds and stays as it is when it fails. -/
theorem load_more_window (sys : Sys) :
    (sys.state.totalPages ≤ sys.state.currentPage → loadMoreUsers sys = sys) ∧
    visibleWindow (loadMoreUsers sys).state = visibleWindow sys.state ∧
    (sys.state.currentPage < sys.state.totalPages →
      (loadMoreUsers sys).pending = sys.pending ++ [sys.state.currentPage + 1] ∧
      (∀ (data : List User) (total_pages : Nat),
        visibleWindow (settle (sys.state.currentPage + 1) (.ok data total_pages)
          (loadMoreUsers sys)).state = visibleWindow sys.state + 6) ∧
      (∀ reason : String,
        visibleWindow (settle (sys.state.currentPage + 1) (.requestFailed reason)
          (loadMoreUsers sys)).state = visibleWindow sys.state ∧
        visibleWindow (settle (sys.state.currentPage + 1) (.parseFailed reason)
          (loadMoreUsers sys)).state = visibleWindow sys.state)) := by
  refine ⟨loadMoreUsers_of_ge sys, ?_, ?_⟩
  · by_cases hlt : sys.state.currentPage < sys.state.totalPages
    · rw [loadMoreUsers_of_lt sys hlt]
      rfl
    · rw [loadMoreUsers_of_ge sys (by omega)]
  · intro hlt
    rw [loadMoreUsers_of_lt sys hlt]
    refine ⟨rfl, ?_, ?_⟩
    · intro data total_pages
      rw [settle_of_mem _ _ _ (by simp)]
      simp only [visibleWindow, startIndex, itemsPerPage, settledState]
      push_cast
      ring
    · intro reason
      rw [settle_of_mem _ _ _ (by simp), settle_of_mem _ _ _ (by simp)]
      exact ⟨rfl, rfl⟩

/-- Witness for C8 (amended): six records on page 1 of 2; the window is still 6 after the
call and 12 once page 2 has arrived; with a single page the call changes nothing. -/
theorem load_more_window_witness :
    visibleWindow firstPageLoaded.state = 6 ∧
    visibleWindow (loadMoreUsers firstPageLoaded).state = visibleWindow firstPageLoaded.state ∧
    visibleWindow (settle 2 (.ok [fay, gus] 2) (loadMoreUsers firstPageLoaded)).state = 12 ∧
    loadMoreUsers allFetched = allFetched :=
  ⟨by decide, (load_more_window firstPageLoaded).2.1, by decide,
   (load_more_window allFetched).1 (by decide)⟩

/-! ## Requests are issued one at a time and in page order -/

theorem issued_self (sys : Sys) : issued sys sys = [] := by
  simp [issued]

theorem issued_of_pending_eq (before after : Sys) (h : after.pending = before.pending) :
    issued before after = [] := by
  simp [issued, h]

theorem range'_one_succ (n : Nat) : List.range' 1 (n + 1) = List.range' 1 n ++ [n + 1] := by
  rw [List.range'_concat]
  simp [Nat.add_comm]

theorem logInv_settle (page : Nat) (o : FetchOutcome) (sys : Sys) (log : List Nat)
    (h : LogInv sys log) :
    issued sys (settle page o sys) = [] ∧ LogInv (settle page o sys) log := by
  by_cases hp : page ∈ sys.pending
  · rw [settle_of_mem page o sys hp]
    obtain ⟨hpos, ⟨hpend, -, -⟩ | ⟨hpend, -, -⟩ | ⟨hpend, hcur, herr, -, hlog⟩ |
      ⟨hpend, herr, -, hlog⟩⟩ := h
    · rw [hpend] at hp
      simp at hp
    · rw [hpend] at hp
      simp at hp
    · rw [hpend] at hp
      have hp1 : page = 1 := by simpa using hp
      subst hp1
      refine ⟨by simp [issued, hpend], ?_⟩
      cases o with
      | ok data total_pages =>
        exact ⟨le_refl 1, Or.inl ⟨by simp [hpend], herr, by simp [settledState, hlog]⟩⟩
      | requestFailed reason =>
        exact ⟨hpos, Or.inr (Or.inl ⟨by simp [hpend], errorShown_fetchErrorMessage _ rfl,
          1, by simp [hlog]⟩)⟩
      | parseFailed reason =>
        exact ⟨hpos, Or.inr (Or.inl ⟨by simp [hpend], errorShown_fetchErrorMessage _ rfl,
          1, by simp [hlog]⟩)⟩
    · rw [hpend] at hp
      have hp1 : page = sys.state.currentPage + 1 := by simpa using hp
      subst hp1
      refine ⟨by simp [issued, hpend], ?_⟩
      cases o with
      | ok data total_pages =>
        exact ⟨by simp [settledState], Or.inl ⟨by simp [hpend], herr, by simp [settledState, hlog]⟩⟩
      | requestFailed reason =>
        exact ⟨hpos, Or.inr (Or.inl ⟨by simp [hpend], errorShown_fetchErrorMessage _ rfl,
          _, hlog⟩)⟩
      | parseFailed reason =>
        exact ⟨hpos, Or.inr (Or.inl ⟨by simp [hpend], errorShown_fetchErrorMessage _ rfl,
          _, hlog⟩)⟩
  · rw [settle_of_not_mem page o sys hp]
    exact ⟨issued_self sys, h⟩

theorem logInv_clickLoadMore (lowerMapping : CaseMapping)
    (localeCompare : String → String → Int) (sys : Sys) (log : List Nat)
    (h : LogInv sys log) :
    (issued sys (clickLoadMore lowerMapping localeCompare sys) = [] ∧
        LogInv (clickLoadMore lowerMapping localeCompare sys) log) ∨
      (sys.pending = [] ∧ sys.state.loading = false ∧
        issued sys (clickLoadMore lowerMapping localeCompare sys) =
          [sys.state.currentPage + 1] ∧
        LogInv (clickLoadMore lowerMapping localeCompare sys)
          (log ++ [sys.state.currentPage + 1])) := by
  by_cases hfire : (loadMoreRendered lowerMapping localeCompare sys.state &&
      !loadMoreDisabled sys.state) = true ∧ sys.state.currentPage < sys.state.totalPages
  · obtain ⟨hguard, hlt⟩ := hfire
    have hclick : clickLoadMore lowerMapping localeCompare sys =
        { state := { sys.state with loading := true },
          pending := sys.pending ++ [sys.state.currentPage + 1] } := by
      unfold clickLoadMore
      rw [if_pos hguard, loadMoreUsers_of_lt sys hlt]
    have hload : sys.state.loading = false := by
      simp only [Bool.and_eq_true, Bool.not_eq_true', loadMoreDisabled, Bool.or_eq_false_iff]
        at hguard
      exact hguard.2.1
    obtain ⟨hpos, ⟨hpend, herr, hlog⟩ | ⟨-, herr, -⟩ | ⟨-, -, -, hl, -⟩ | ⟨-, -, hl, -⟩⟩ := h
    · right
      rw [hclick]
      refine ⟨hpend, hload, by simp [issued, hpend], hpos, ?_⟩
      exact Or.inr (Or.inr (Or.inr ⟨by simp [hpend], herr, rfl, by
        show log ++ [sys.state.currentPage + 1] = List.range' 1 (sys.state.currentPage + 1)
        rw [range'_one_succ, hlog]⟩))
    · have := loadMoreRendered_of_errorShown lowerMapping localeCompare sys.state herr
      rw [this] at hguard
      simp at hguard
    · rw [hl] at hload
      exact absurd hload (by simp)
    · rw [hl] at hload
      exact absurd hload (by simp)
  · left
    have hclick : clickLoadMore lowerMapping localeCompare sys = sys := by
      unfold clickLoadMore
      by_cases hguard : (loadMoreRendered lowerMapping localeCompare sys.state &&
          !loadMoreDisabled sys.state) = true
      · rw [if_pos hguard]
        exact loadMoreUsers_of_ge sys (by
          have : ¬ sys.state.currentPage < sys.state.totalPages := fun hlt => hfire ⟨hguard, hlt⟩
          omega)
      · rw [if_neg hguard]
    rw [hclick]
    exact ⟨issued_self sys, h⟩

theorem logInv_of_eq (sys after : Sys) (log : List Nat)
    (hp : after.pending = sys.pending)
    (hc : after.state.currentPage = sys.state.currentPage)
    (he : after.state.error = sys.state.error)
    (hl : after.state.loading = sys.state.loading) (h : LogInv sys log) :
    issued sys after = [] ∧ LogInv after (log ++ issued sys after) := by
  have hi : issued sys after = [] := by simp [issued, hp]
  have hes : errorShown after.state = errorShown sys.state := by
    unfold errorShown
    rw [he]
  refine ⟨hi, ?_⟩
  rw [hi, List.append_nil]
  unfold LogInv
  rw [hp, hc, hes, hl]
  exact h

theorem logInv_step (lowerMapping : CaseMapping) (localeCompare : String → String → Int)
    (sys : Sys) (log : List Nat) (e : Event) (h : LogInv sys log) :
    (issued sys (step lowerMapping localeCompare sys e) = [] ∨
      (sys.pending = [] ∧ sys.state.loading = false ∧
        issued sys (step lowerMapping localeCompare sys e) = [sys.state.currentPage + 1])) ∧
    LogInv (step lowerMapping localeCompare sys e)
      (log ++ issued sys (step lowerMapping localeCompare sys e)) := by
  cases e with
  | settled page o =>
    have h1 := logInv_settle page o sys log h
    have h2 : issued sys (step lowerMapping localeCompare sys (.settled page o)) = [] := h1.1
    rw [h2, List.append_nil]
    exact ⟨Or.inl rfl, h1.2⟩
  | loadMoreClicked =>
    rcases logInv_clickLoadMore lowerMapping localeCompare sys log h with
      ⟨h1, h2⟩ | ⟨h1, h2, h3, h4⟩
    · have h1' : issued sys (step lowerMapping localeCompare sys .loadMoreClicked) = [] := h1
      rw [h1', List.append_nil]
      exact ⟨Or.inl rfl, h2⟩
    · have h3' : issued sys (step lowerMapping localeCompare sys .loadMoreClicked) =
          [sys.state.currentPage + 1] := h3
      rw [h3']
      exact ⟨Or.inr ⟨h1, h2, rfl⟩, h4⟩
  | searchTermChanged v =>
    simp only [step]
    split
    · have := logInv_of_eq sys { sys with state := { sys.state with searchTerm := v } } log
        rfl rfl rfl rfl h
      exact ⟨Or.inl this.1, this.2⟩
    · have := logInv_of_eq sys sys log rfl rfl rfl rfl h
      exact ⟨Or.inl this.1, this.2⟩
  | sortByChanged v =>
    simp only [step]
    split
    · have := logInv_of_eq sys { sys with state := { sys.state with sortBy := v } } log
        rfl rfl rfl rfl h
      exact ⟨Or.inl this.1, this.2⟩
    · have := logInv_of_eq sys sys log rfl rfl rfl rfl h
      exact ⟨Or.inl this.1, this.2⟩
  | filterByChanged v =>
    simp only [step]
    split
    · have := logInv_of_eq sys { sys with state := { sys.state with filterBy := v } } log
        rfl rfl rfl rfl h
      exact ⟨Or.inl this.1, this.2⟩
    · have := logInv_of_eq sys sys log rfl rfl rfl rfl h
      exact ⟨Or.inl this.1, this.2⟩

theorem logInv_mount : LogInv mount mount.pending :=
  ⟨by decide, Or.inr (Or.inr (Or.inl ⟨rfl, rfl, rfl, rfl, rfl⟩))⟩

theorem logInv_foldl (lowerMapping : CaseMapping) (localeCompare : String → String → Int)
    (events : List Event) :
    ∀ acc : Sys × List Nat, LogInv acc.1 acc.2 →
      LogInv
        (events.foldl
          (fun acc e =>
            (step lowerMapping localeCompare acc.1 e,
              acc.2 ++ issued acc.1 (step lowerMapping localeCompare acc.1 e))) acc).1
        (events.foldl
          (fun acc e =>
            (step lowerMapping localeCompare acc.1 e,
              acc.2 ++ issued acc.1 (step lowerMapping localeCompare acc.1 e))) acc).2 := by
  induction events with
  | nil => exact fun _ h => h
  | cons e events ih =>
    intro acc h
    exact ih _ (logInv_step lowerMapping localeCompare acc.1 acc.2 e h).2

theorem runLogged_fst_foldl (lowerMapping : CaseMapping)
    (localeCompare : String → String → Int) (events : List Event) :
    ∀ acc : Sys × List Nat,
      (events.foldl
          (fun acc e =>
            (step lowerMapping localeCompare acc.1 e,
              acc.2 ++ issued acc.1 (step lowerMapping localeCompare acc.1 e))) acc).1 =
        events.foldl (step lowerMapping localeCompare) acc.1 := by
  induction events with
  | nil => exact fun _ => rfl
  | cons e events ih =>
    intro acc
    exact ih _

theorem runLogged_fst (lowerMapping : CaseMapping) (localeCompare : String → String → Int)
    (events : List Event) :
    (runLogged lowerMapping localeCompare events).1 = run lowerMapping localeCompare events :=
  runLogged_fst_foldl lowerMapping localeCompare events (mount, mount.pending)

theorem logInv_run (lowerMapping : CaseMapping) (localeCompare : String → String → Int)
    (events : List Event) :
    LogInv (run lowerMapping localeCompare events)
      (requestLog lowerMapping localeCompare events) := by
  have h := logInv_foldl lowerMapping localeCompare events (mount, mount.pending) logInv_mount
  rw [← runLogged_fst]
  exact h

/-- C9: in every state with `loading = true` the 'Load More' button, whose `onClick` is the
only call of `loadMoreUsers`, is disabled, so asking for more again changes nothing and
starts no fetch. Hence after every sequence of events from the mount at most one fetch is
outstanding, it is for page 1 or for `currentPage + 1`, and `loading` is set while it is;
an event starts a fetch only when none is outstanding, and then for `currentPage + 1`; the
pages requested along the run are 1, 2, 3, ... in this order, and only the page requested
last can still be outstanding. -/
theorem no_reentrant_fetch (lowerMapping : CaseMapping)
    (localeCompare : String → String → Int) (sys : Sys)
    (hload : sys.state.loading = true) (events : List Event) (e : Event) :
    loadMoreDisabled sys.state = true ∧
    clickLoadMore lowerMapping localeCompare sys = sys ∧
    issued sys (step lowerMapping localeCompare sys .loadMoreClicked) = [] ∧
    (run lowerMapping localeCompare events).pending.length ≤ 1 ∧
    (∀ p ∈ (run lowerMapping localeCompare events).pending,
      (run lowerMapping localeCompare events).state.loading = true ∧
      (p = 1 ∧ (run lowerMapping localeCompare events).state.currentPage = 1 ∨
        p = (run lowerMapping localeCompare events).state.currentPage + 1) ∧
      (requestLog lowerMapping localeCompare events).getLast? = some p) ∧
    (issued (run lowerMapping localeCompare events)
        (step lowerMapping localeCompare (run lowerMapping localeCompare events) e) ≠ [] →
      (run lowerMapping localeCompare events).pending = [] ∧
      issued (run lowerMapping localeCompare events)
          (step lowerMapping localeCompare (run lowerMapping localeCompare events) e) =
        [(run lowerMapping localeCompare events).state.currentPage + 1]) ∧
    requestLog lowerMapping localeCompare events =
      List.range' 1 (requestLog lowerMapping localeCompare events).length := by
  have hinv := logInv_run lowerMapping localeCompare events
  have hclick := clickLoadMore_of_loading lowerMapping localeCompare sys hload
  refine ⟨by simp [loadMoreDisabled, hload], hclick, ?_, ?_, ?_, ?_, ?_⟩
  · show issued sys (clickLoadMore lowerMapping localeCompare sys) = []
    rw [hclick]
    exact issued_self sys
  · obtain ⟨-, ⟨h, -⟩ | ⟨h, -⟩ | ⟨h, -⟩ | ⟨h, -⟩⟩ := hinv <;> simp [h]
  · intro p hp
    obtain ⟨-, ⟨h, -⟩ | ⟨h, -⟩ | ⟨h, hcur, -, hl, hlog⟩ | ⟨h, -, hl, hlog⟩⟩ := hinv
    · rw [h] at hp
      simp at hp
    · rw [h] at hp
      simp at hp
    · rw [h] at hp
      have hp1 : p = 1 := by simpa using hp
      subst hp1
      exact ⟨hl, Or.inl ⟨rfl, hcur⟩, by rw [hlog]; rfl⟩
    · rw [h] at hp
      have hp1 : p = (run lowerMapping localeCompare events).state.currentPage + 1 := by
        simpa using hp
      subst hp1
      exact ⟨hl, Or.inr rfl, by rw [hlog, range'_one_succ, List.getLast?_concat]⟩
  · intro hne
    rcases (logInv_step lowerMapping localeCompare _ _ e hinv).1 with h | ⟨h1, -, h3⟩
    · exact absurd h hne
    · exact ⟨h1, h3⟩
  · obtain ⟨-, ⟨-, -, h⟩ | ⟨-, -, n, h⟩ | ⟨-, -, -, -, h⟩ | ⟨-, -, -, h⟩⟩ := hinv <;>
      rw [h] <;> simp

/-- Witness for C9: while page 2 is being fetched a click changes nothing; when ten records
came back for page 1 of 3 and 'Load More' was clicked twice, only one request for page 2
is outstanding, and a click after page 2 arrived asks for page 3. -/
theorem no_reentrant_fetch_witness :
    loadingSecondPage.state.loading = true ∧
    clickLoadMore asciiLowerMapping codeUnitCompare loadingSecondPage = loadingSecondPage ∧
    (run asciiLowerMapping codeUnitCompare
      [.settled 1 (.ok tenUsers 3), .loadMoreClicked, .loadMoreClicked]).pending = [2] ∧
    requestLog asciiLowerMapping codeUnitCompare
      [.settled 1 (.ok tenUsers 3), .loadMoreClicked, .loadMoreClicked,
        .settled 2 (.ok tenUsers 3), .loadMoreClicked] = [1, 2, 3] :=
  ⟨by decide,
   (no_reentrant_fetch asciiLowerMapping codeUnitCompare loadingSecondPage (by decide) []
      .loadMoreClicked).2.1,
   by decide, by decide⟩

/-! ## The window never truncates pages of at most six records -/

theorem users_bound_step (lowerMapping : CaseMapping)
    (localeCompare : String → String → Int) (sys : Sys) (e : Event)
    (hinv : Inv sys) (hb : sys.state.users.length ≤ 6 * sys.state.currentPage)
    (he : e.smallPage) :
    (step lowerMapping localeCompare sys e).state.users.length ≤
      6 * (step lowerMapping localeCompare sys e).state.currentPage := by
  cases e with
  | settled page o =>
    show (settle page o sys).state.users.length ≤ 6 * (settle page o sys).state.currentPage
    by_cases hp : page ∈ sys.pending
    · rw [settle_of_mem page o sys hp]
      cases o with
      | requestFailed reason => exact hb
      | parseFailed reason => exact hb
      | ok data total_pages =>
        have hd : data.length ≤ 6 := he
        obtain ⟨hpos, hpend | ⟨hpend, -, -, -⟩ | ⟨hpend, -⟩⟩ := hinv
        · rw [hpend] at hp
          simp at hp
        · rw [hpend] at hp
          have hp1 : page = 1 := by simpa using hp
          subst hp1
          simpa [settledState] using hd
        · rw [hpend] at hp
          have hp1 : page = sys.state.currentPage + 1 := by simpa using hp
          subst hp1
          have hne : ¬ (sys.state.currentPage = 0) := by omega
          simp only [settledState, Nat.add_left_eq_self, hne, if_false, List.length_append]
          omega
    · rw [settle_of_not_mem page o sys hp]
      exact hb
  | loadMoreClicked =>
    show (clickLoadMore lowerMapping localeCompare sys).state.users.length ≤
      6 * (clickLoadMore lowerMapping localeCompare sys).state.currentPage
    unfold clickLoadMore loadMoreUsers
    split
    · split
      · exact hb
      · exact hb
    · exact hb
  | searchTermChanged v =>
    simp only [step]
    split
    · exact hb
    · exact hb
  | sortByChanged v =>
    simp only [step]
    split
    · exact hb
    · exact hb
  | filterByChanged v =>
    simp only [step]
    split
    · exact hb
    · exact hb

theorem users_bound_foldl (lowerMapping : CaseMapping)
    (localeCompare : String → String → Int) (events : List Event)
    (hsmall : ∀ e ∈ events, e.smallPage) :
    ∀ sys : Sys, Inv sys → sys.state.users.length ≤ 6 * sys.state.currentPage →
      (events.foldl (step lowerMapping localeCompare) sys).state.users.length ≤
        6 * (events.foldl (step lowerMapping localeCompare) sys).state.currentPage := by
  induction events with
  | nil => exact fun _ _ h => h
  | cons e events ih =>
    intro sys hinv hb
    exact ih (fun e' he' => hsmall e' (List.mem_cons_of_mem e he')) _
      (inv_step lowerMapping localeCompare sys e hinv)
      (users_bound_step lowerMapping localeCompare sys e hinv hb (hsmall e (List.mem_cons_self e events)))

theorem paginatedUsers_eq_of_bound (lowerMapping : CaseMapping)
    (localeCompare : String → String → Int) (s : State)
    (hpage : 1 ≤ s.currentPage) (hb : s.users.length ≤ 6 * s.currentPage) :
    paginatedUsers lowerMapping localeCompare s = filteredAndSortedUsers lowerMapping localeCompare s := by
  rw [paginatedUsers_eq_take lowerMapping localeCompare s hpage]
  apply List.take_of_length_le
  have := filteredAndSortedUsers_length_le lowerMapping localeCompare s
  omega

/-- C10: in every state with `currentPage ≥ 1` and at most `6 * currentPage` records in
`users` (every state reached from the mount when no response carries more than 6 records
is such a state), and for every `searchTerm`, `sortBy` and `filterBy`, `paginatedUsers`
equals `filteredAndSortedUsers`; the condition under which the 'Load More' button is
rendered is false, and a click cannot reach `loadMoreUsers`. -/
theorem window_never_truncates (lowerMapping : CaseMapping)
    (localeCompare : String → String → Int) (s : State)
    (hpage : 1 ≤ s.currentPage) (hb : s.users.length ≤ 6 * s.currentPage) :
    paginatedUsers lowerMapping localeCompare s = filteredAndSortedUsers lowerMapping localeCompare s ∧
    ¬ ((paginatedUsers lowerMapping localeCompare s).length <
        (filteredAndSortedUsers lowerMapping localeCompare s).length) ∧
    loadMoreRendered lowerMapping localeCompare s = false ∧
    (∀ pending : List Nat,
      clickLoadMore lowerMapping localeCompare { state := s, pending := pending } =
        { state := s, pending := pending }) ∧
    (∀ events : List Event, (∀ e ∈ events, e.smallPage) →
      1 ≤ (run lowerMapping localeCompare events).state.currentPage ∧
      (run lowerMapping localeCompare events).state.users.length ≤
        6 * (run lowerMapping localeCompare events).state.currentPage) := by
  have heq := paginatedUsers_eq_of_bound lowerMapping localeCompare s hpage hb
  have hrend : loadMoreRendered lowerMapping localeCompare s = false := by
    simp [loadMoreRendered, heq]
  refine ⟨heq, by rw [heq]; exact lt_irrefl _, hrend, ?_, ?_⟩
  · intro pending
    exact clickLoadMore_of_not_rendered lowerMapping localeCompare _ hrend
  · intro events hsmall
    exact ⟨(inv_run lowerMapping localeCompare events).1,
      users_bound_foldl lowerMapping localeCompare events hsmall mount inv_mount (by decide)⟩

/-- Witness for C10: six records on the first page, under every one of the sample
settings the whole filtered list is visible and no button is rendered. -/
theorem window_never_truncates_witness :
    1 ≤ firstPageLoaded.state.currentPage ∧
    firstPageLoaded.state.users.length ≤ 6 * firstPageLoaded.state.currentPage ∧
    paginatedUsers asciiLowerMapping codeUnitCompare firstPageLoaded.state =
      filteredAndSortedUsers asciiLowerMapping codeUnitCompare firstPageLoaded.state ∧
    loadMoreRendered asciiLowerMapping codeUnitCompare firstPageLoaded.state = false :=
  ⟨by decide, by decide,
   (window_never_truncates asciiLowerMapping codeUnitCompare firstPageLoaded.state (by decide) (by decide)).1,
   (window_never_truncates asciiLowerMapping codeUnitCompare firstPageLoaded.state (by decide)
      (by decide)).2.2.1⟩

end UserDirectory
